import Mathlib

/-!
Shallow embedding of webidl-audit.py, a WebIDL review audit helper.

The script reads a git log file line by line, classifies each summary
line, checks reviewer annotations of bug-fix lines against a fixed
WebIDL peer list, checks commit-author emails of the remaining patches
against a smaller peer-email list, accumulates named counters, writes
violations to stderr, and exits zero or nonzero.

Modelling choices.
Time is modelled as seconds (an Int); a Python timedelta of d days is
d * 86400 seconds.  The external git repository is modelled by an
environment: the captured start time, a map from revision to commit
date, and a map from revision to commit-author email.  The regular
expression character classes for whitespace and digits are modelled
over ASCII.  An uncaught Python exception is modelled by the exit kind
exc; sys.exit or exit with -1 by the exit kind err (status 255).
-/

namespace WebidlAudit

/-- The external world of the script: the time captured once at start
(currentDate in the source), the commit date of each revision
(revisionDate) and the commit-author email of each revision
(revisionAuthor). -/
structure Env where
  now : Int
  date : String → Int
  author : String → String

/-- Python str.strip() whitespace, ASCII part. -/
def isPySpace (c : Char) : Bool :=
  c == ' ' || c == '\t' || c == '\n' || c == '\r' || c == '\x0b' || c == '\x0c'

/-- Python line.strip(): drop leading and trailing whitespace. -/
def pyStrip (s : String) : String :=
  String.mk (((s.toList.dropWhile isPySpace).reverse.dropWhile isPySpace).reverse)

/-- numOldYears = 3 in the source. -/
def numOldYears : Int := 3

/-- Seconds per day, used to model timedelta(days=n). -/
def secondsPerDay : Int := 86400

/-- Python timedelta(days=n) in seconds. -/
def timedeltaDays (n : Int) : Int := n * secondsPerDay

/-- dateIsOld from the source: currentDate - previousDate >= timedelta(days=numOldYears*365). -/
def dateIsOld (env : Env) (previousDate : Int) : Bool :=
  decide (timedeltaDays (numOldYears * 365) ≤ env.now - previousDate)

/-- Character class [a-z0-9] of the revision group in the three line patterns. -/
def isRevChar (c : Char) : Bool := c.isLower || c.isDigit

/-- Whether the first list is an initial run of the second, the literal
part of regexp matching. -/
def listBeginsWith : List Char → List Char → Bool
  | [], _ => true
  | _ :: _, [] => false
  | p :: ps, c :: cs => p == c && listBeginsWith ps cs

/-- The alternatives of backoutRE and mergeRE in the source, in order. -/
def backoutMergeWords : List String :=
  ["Revert", "Backed out", "Back out", "back out",
   "Backout", "backout", "BACKOUT", "Backing out", "Merge", "merge"]

/-- backoutMergePattern.match(line): the regexp is
a revision [a-z0-9]+, one space, one of the backout or merge words, one
space.  The revision run is maximal since a space is not a revision
character, so matching is deterministic. -/
def backoutMergeMatch (line : String) : Bool :=
  let cs := line.toList
  let rev := cs.takeWhile isRevChar
  match rev, cs.dropWhile isRevChar with
  | _ :: _, ' ' :: rest =>
      backoutMergeWords.any (fun w => listBeginsWith (w ++ " ").toList rest)
  | _, _ => false

/-- bugPattern.match(line): the regexp is a revision [a-z0-9]+, then
whitespace, then an optional literal Fix for, then Bug or bug, a space
and a run of digits.  Returns the revision and bugno groups.  The
greedy runs are maximal because the adjacent character classes are
disjoint, so matching is deterministic. -/
def bugMatch (line : String) : Option (String × String) :=
  let cs := line.toList
  let rev := cs.takeWhile isRevChar
  if rev.isEmpty then none else
  let r1 := cs.dropWhile isRevChar
  if (r1.takeWhile isPySpace).isEmpty then none else
  let r2 := r1.dropWhile isPySpace
  let r3 := if listBeginsWith "Fix for ".toList r2 then r2.drop 8 else r2
  let r4 := if listBeginsWith "Bug ".toList r3 then some (r3.drop 4)
            else if listBeginsWith "bug ".toList r3 then some (r3.drop 4)
            else none
  match r4 with
  | none => none
  | some r5 =>
    let bug := r5.takeWhile Char.isDigit
    if bug.isEmpty then none else some (String.mk rev, String.mk bug)

/-- unrecognizedPattern.match(line): a revision [a-z0-9]+, one space,
and the rest of the line as the summary group. -/
def unrecognizedMatch (line : String) : Option (String × String) :=
  let cs := line.toList
  match cs.takeWhile isRevChar, cs.dropWhile isRevChar with
  | _ :: _, ' ' :: rest => some (String.mk (cs.takeWhile isRevChar), String.mk rest)
  | _, _ => none

/-- Outcome of the initial classification of one summary line. -/
inductive Class1 where
  | bug (revision bugno line : String)
  | revert
  | oldUnrecognized
  | errNonOld (summary : String)
  | crashHashless
  deriving DecidableEq

/-- One iteration of the first loop of the script: strip the line, try
bugPattern, then backoutMergePattern, then unrecognizedPattern with the
date check; a line matching none of the three reaches the write that
dereferences a failed match, an AttributeError. -/
def classifyLine (env : Env) (rawLine : String) : Class1 :=
  let line := pyStrip rawLine
  match bugMatch line with
  | some (rev, bugno) => .bug rev bugno line
  | none =>
    if backoutMergeMatch line then .revert
    else
      match unrecognizedMatch line with
      | some (rev, summary) =>
          if dateIsOld env (env.date rev) then .oldUnrecognized
          else .errNonOld summary
      | none => .crashHashless

/-- An element of the bugs list: revision, bugno and the stripped line. -/
structure BugEntry where
  revision : String
  bugno : String
  line : String
  deriving DecidableEq

/-- Result of the first loop: either the bugs list with the numReverts
and numOldUnrecognized counters, or the early exit on a non-old
unrecognized line, or the AttributeError crash on a hashless line. -/
inductive Stage1Out where
  | ok (bugs : List BugEntry) (numReverts numOldUnrecognized : Nat)
  | errNonOld (summary : String)
  | crashHashless
  deriving DecidableEq

/-- The first loop of the script over the input lines. -/
def stage1 (env : Env) : List String → Stage1Out
  | [] => .ok [] 0 0
  | l :: ls =>
    match classifyLine env l with
    | .bug rev bugno line =>
        match stage1 env ls with
        | .ok bs nr no => .ok (⟨rev, bugno, line⟩ :: bs) nr no
        | e => e
    | .revert =>
        match stage1 env ls with
        | .ok bs nr no => .ok bs (nr + 1) no
        | e => e
    | .oldUnrecognized =>
        match stage1 env ls with
        | .ok bs nr no => .ok bs nr (no + 1)
        | e => e
    | .errNonOld s => .errNonOld s
    | .crashHashless => .crashHashless

/-- Character class [a-zA-Z0-9\-\._] of the reviewer group of reviewerPattern. -/
def isReviewerChar (c : Char) : Bool :=
  c.isAlpha || c.isDigit || c == '-' || c == '.' || c == '_'

/-- reviewerPattern.match(r): an optional r= or sr=, then a nonempty run
of reviewer characters to the end; returns the reviewer group.  When r
begins with r= or sr= the prefixless alternative cannot match since the
equals sign is not a reviewer character, so matching is deterministic. -/
def reviewerMatch (r : String) : Option String :=
  let cs := r.toList
  if listBeginsWith ['r', '='] cs then
    let s := cs.drop 2
    if !s.isEmpty && s.all isReviewerChar then some (String.mk s) else none
  else if listBeginsWith ['s', 'r', '='] cs then
    let s := cs.drop 3
    if !s.isEmpty && s.all isReviewerChar then some (String.mk s) else none
  else
    if !cs.isEmpty && cs.all isReviewerChar then some (String.mk cs) else none

/-- The webIDLPeersRE alternatives of the source. -/
def webIDLPeers : List String :=
  ["asuth", "baku", "bent", "bholley", "billm", "bkelly", "bz", "bzbarsky",
   "echen", "edgar", "ehsan", "emilio", "farre", "hsivonen", "jst", "khuey",
   "mccr8", "mounir", "mrbkap", "nika", "Nika", "peterv", "qdot", "saschanaz",
   "sefeng", "sicking", "smaug", "tschuster"]

/-- webIDLPeersPattern.match(r): the anchored alternation matches exactly
when r equals one of the peer names. -/
def isWebIDLPeer (r : String) : Bool := webIDLPeers.contains r

/-- Python r.strip of a space: drop leading and trailing space characters. -/
def stripSpaces (s : String) : String :=
  String.mk (((s.toList.dropWhile (· == ' ')).reverse.dropWhile (· == ' ')).reverse)

/-- Python r.rstrip of the set space dot bracket paren, as in the source. -/
def rstripJunk (s : String) : String :=
  String.mk ((s.toList.reverse.dropWhile
    (fun c => c == ' ' || c == '.' || c == ']' || c == ')')).reverse)

/-- One token of the reviewer string, as normalized inside the loop of
parseReviewers: strip spaces, rstrip trailing junk, then reviewerPattern,
with the special case mapping emilio DONTBUILD to emilio; none models the
return of BAD_PARSE. -/
def parseToken (t : String) : Option String :=
  let r := rstripJunk (stripSpaces t)
  match reviewerMatch r with
  | some v => some v
  | none => if r = "emilio DONTBUILD" then some "emilio" else none

/-- The three return values of parseReviewers. -/
inductive RevParse where
  | OK
  | BAD_PARSE
  | MISSING
  deriving DecidableEq

/-- The loop of parseReviewers over the comma-separated tokens: the
first token that fails to parse returns BAD_PARSE, the first token that
parses to a peer returns OK, and exhausting the list returns MISSING. -/
def parseReviewersList : List String → RevParse
  | [] => .MISSING
  | t :: ts =>
    match parseToken t with
    | none => .BAD_PARSE
    | some r => if isWebIDLPeer r then .OK else parseReviewersList ts

/-- Python split on the comma separator: every comma separates, empty
pieces are kept, and the empty input yields one empty piece. -/
def splitComma : List Char → List (List Char)
  | [] => [[]]
  | c :: cs =>
    if c == ',' then [] :: splitComma cs
    else
      match splitComma cs with
      | t :: ts => (c :: t) :: ts
      | [] => [[c]]

/-- parseReviewers from the source: split the reviewer string on commas
and run the loop. -/
def parseReviewers (rString : String) : RevParse :=
  parseReviewersList ((splitComma rString.toList).map String.mk)

/-- Everything after the leftmost occurrence of r=, or none. -/
def searchREqual : List Char → Option (List Char)
  | [] => none
  | c :: cs =>
    if listBeginsWith ['r', '='] (c :: cs) then some (cs.drop 1)
    else searchREqual cs

/-- rEqualPattern.search(line): the leftmost match of r= followed by the
rest of the line as the reviewer group; so it returns everything after
the first occurrence of r=, or none when line has no r= at all. -/
def rEqualSearch (line : String) : Option String :=
  (searchREqual line.toList).map String.mk

/-- Outcome of the second loop for one bugs entry. -/
inductive BugOutcome where
  | hasPeer
  | oldUnparsable
  | oldMissing
  | missingReview
  | oldReviewerless
  | peerAuthoredNoR
  | errUnparsable
  | errNoReviewer
  deriving DecidableEq

/-- One iteration of the second loop of the script: search for r= in the
line; if found, parse the reviewers and dispatch on OK, BAD_PARSE and
MISSING with the date check; if not found, the date check, then the
hardcoded bug 1968400 exemption, else the error exit. -/
def classifyBug (env : Env) (e : BugEntry) : BugOutcome :=
  match rEqualSearch e.line with
  | some rstr =>
    match parseReviewers rstr with
    | .OK => .hasPeer
    | .BAD_PARSE =>
        if dateIsOld env (env.date e.revision) then .oldUnparsable else .errUnparsable
    | .MISSING =>
        if dateIsOld env (env.date e.revision) then .oldMissing else .missingReview
  | none =>
    if dateIsOld env (env.date e.revision) then .oldReviewerless
    else if e.bugno = "1968400" then .peerAuthoredNoR
    else .errNoReviewer

/-- Result of the second loop: the bugsMissingReview list and the
counters numHasPeer, numOldUnparsableReviewers, numOldMissing,
numOldReviewerless, numPeerAuthored, or the early error exit. -/
inductive Stage2Out where
  | ok (missing : List BugEntry)
       (nHasPeer nOldUnparsable nOldMissing nOldReviewerless nPeerAuthored : Nat)
  | err (msg : String)
  deriving DecidableEq

/-- The second loop of the script over the bugs list. -/
def stage2 (env : Env) : List BugEntry → Stage2Out
  | [] => .ok [] 0 0 0 0 0
  | e :: rest =>
    match classifyBug env e with
    | .errUnparsable =>
        .err ("Error: couldn't parse reviewers for non-old bug: " ++ e.line)
    | .errNoReviewer =>
        .err ("Error: non-old bug without reviewer string: " ++ e.line)
    | .hasPeer =>
        match stage2 env rest with
        | .ok ms a b c d p => .ok ms (a + 1) b c d p
        | r => r
    | .oldUnparsable =>
        match stage2 env rest with
        | .ok ms a b c d p => .ok ms a (b + 1) c d p
        | r => r
    | .oldMissing =>
        match stage2 env rest with
        | .ok ms a b c d p => .ok ms a b (c + 1) d p
        | r => r
    | .missingReview =>
        match stage2 env rest with
        | .ok ms a b c d p => .ok (e :: ms) a b c d p
        | r => r
    | .oldReviewerless =>
        match stage2 env rest with
        | .ok ms a b c d p => .ok ms a b c (d + 1) p
        | r => r
    | .peerAuthoredNoR =>
        match stage2 env rest with
        | .ok ms a b c d p => .ok ms a b c d (p + 1)
        | r => r

/-- The webIDLPeersEmailRE alternatives of the source. -/
def webIDLPeersEmails : List String := ["emilio@crisal.io", "sefeng@mozilla.com"]

/-- webIDLPeersEmailPattern.match(author): the anchored alternation
matches exactly when the author equals one of the two peer emails. -/
def isPeerEmail (s : String) : Bool := webIDLPeersEmails.contains s

/-- Outcome of the third loop for one bugsMissingReview entry. -/
inductive MissingOutcome where
  | peerAuthored
  | knownMissing
  | unknownMissing
  deriving DecidableEq

/-- One iteration of the third loop of the script: fetch the author
email of the revision and match it against the peer-email pattern, then
the hardcoded exemptions of bugs 1966190 and 1979610, else unknown. -/
def classifyMissing (env : Env) (e : BugEntry) : MissingOutcome :=
  if isPeerEmail (env.author e.revision) then .peerAuthored
  else if e.bugno = "1966190" then .knownMissing
  else if e.bugno = "1979610" then .knownMissing
  else .unknownMissing

/-- The stderr line written for an unknown missing review, without the
trailing newline, as in the source. -/
def missingMsg (e : BugEntry) : String :=
  "MISSING WebIDL review for bug " ++ e.bugno ++ ": " ++ e.line

/-- Result of the third loop: the additional numPeerAuthored increments,
numKnownMissing, numUnknownMissing, and the stderr lines written. -/
structure Stage3Out where
  peerAuthored : Nat
  known : Nat
  unknown : Nat
  stderr : List String
  deriving DecidableEq

/-- The third loop of the script over the bugsMissingReview list. -/
def stage3 (env : Env) : List BugEntry → Stage3Out
  | [] => ⟨0, 0, 0, []⟩
  | e :: rest =>
    let s := stage3 env rest
    match classifyMissing env e with
    | .peerAuthored => ⟨s.peerAuthored + 1, s.known, s.unknown, s.stderr⟩
    | .knownMissing => ⟨s.peerAuthored, s.known + 1, s.unknown, s.stderr⟩
    | .unknownMissing => ⟨s.peerAuthored, s.known, s.unknown + 1, missingMsg e :: s.stderr⟩

/-- The named counters of the script. -/
structure Counters where
  numReverts : Nat
  numOldUnrecognized : Nat
  numHasPeer : Nat
  numOldUnparsableReviewers : Nat
  numOldMissing : Nat
  numOldReviewerless : Nat
  numPeerAuthored : Nat
  numKnownMissing : Nat
  numUnknownMissing : Nat
  deriving DecidableEq

/-- The counters at the end of a run with no early exit: the stage-two
numPeerAuthored and the stage-three increments to it are summed, as the
script increments the one variable in both loops. -/
def finalCounters (nr no a b c d p : Nat) (s3 : Stage3Out) : Counters :=
  ⟨nr, no, a, b, c, d, p + s3.peerAuthored, s3.known, s3.unknown⟩

/-- The stdout report printed at the end of a successful run, one string
per print call of the source. -/
def reportLines (c : Counters) : List String :=
  ["Patches with WebIDL peer review: " ++ toString c.numHasPeer,
   "Patches missing WebIDL peer review, known issue: " ++ toString c.numKnownMissing,
   "Patches missing WebIDL peer review, but authored by peer: " ++ toString c.numPeerAuthored,
   "Old patches missing WebIDL peer review: " ++ toString c.numOldMissing,
   "Old patches without parsable reviewer strings: " ++ toString c.numOldUnparsableReviewers,
   "Old patches without reviewer strings: " ++ toString c.numOldReviewerless,
   "",
   "Patches that are backouts: " ++ toString c.numReverts,
   "Old unrecognized summaries: " ++ toString c.numOldUnrecognized,
   "",
   "(Old means more than " ++ toString numOldYears ++ " years old.)"]

/-- The final stderr banner written before the nonzero exit when unknown
missing reviews remain. -/
def unknownBanner : String :=
  "!!! Unknown non-old patches missing WebIDL review !!!"

/-- How the process terminates: falling off the end with status zero
after printing the report from the counters, exit(-1) with status 255,
or an uncaught exception with status 1. -/
inductive ExitKind where
  | ok (c : Counters)
  | err
  | exc
  deriving DecidableEq

/-- The numeric process exit status of each exit kind. -/
def exitStatus : ExitKind → Nat
  | .ok _ => 0
  | .err => 255
  | .exc => 1

/-- The observable result of a run: the stderr lines written, the stdout
lines printed, and the exit kind. -/
structure RunResult where
  stderr : List String
  stdout : List String
  exit : ExitKind
  deriving DecidableEq

/-- The whole script on the given environment and input lines. -/
def run (env : Env) (lines : List String) : RunResult :=
  match stage1 env lines with
  | .errNonOld s =>
      ⟨["Error: non-old unrecognized line: " ++ s], [], .err⟩
  | .crashHashless => ⟨[], [], .exc⟩
  | .ok bs nr no =>
    match stage2 env bs with
    | .err msg => ⟨[msg], [], .err⟩
    | .ok ms a b c d p =>
      let s3 := stage3 env ms
      let cnt := finalCounters nr no a b c d p s3
      if 0 < cnt.numUnknownMissing then
        ⟨s3.stderr ++ [unknownBanner], [], .err⟩
      else
        ⟨s3.stderr, reportLines cnt, .ok cnt⟩

/-- Spec reading of claim C3: at least one reviewer named in the
comma-separated annotation, after the normalization the code itself
applies to one token, is a member of the fixed WebIDL peer list.  This
definition follows the words of the spec sentence and is compared with
parseReviewers, the definition from the source. -/
def someNamedReviewerIsPeer (rString : String) : Bool :=
  ((splitComma rString.toList).map String.mk).any (fun t =>
    match parseToken t with
    | some r => isWebIDLPeer r
    | none => false)

/-- A concrete environment whose commits are all recent and authored
from a non-peer email. -/
def envFresh : Env := ⟨1000, fun _ => 0, fun _ => "nobody@example.com"⟩

/-- A concrete environment whose commits are all old. -/
def envOld : Env := ⟨200000000, fun _ => 100000000, fun _ => "nobody@example.com"⟩

/-- A concrete environment whose commits are all recent and authored
from a peer email. -/
def envPeerMail : Env := ⟨1000, fun _ => 0, fun _ => "emilio@crisal.io"⟩

/-! Helper lemmas about the three stages. -/

/-- The date threshold of the audit, rewritten from 3 times 365 days to
1095 days. -/
theorem dateIsOld_iff (env : Env) (d : Int) :
    dateIsOld env d = true ↔ timedeltaDays 1095 ≤ env.now - d := by
  rw [dateIsOld, decide_eq_true_eq]
  norm_num [numOldYears]

/-- The second loop ignores the author map: two environments with the
same start time and the same date map classify a bugs entry alike. -/
theorem classifyBug_congr (env env' : Env) (hn : env.now = env'.now)
    (hd : env.date = env'.date) (e : BugEntry) :
    classifyBug env e = classifyBug env' e := by
  simp only [classifyBug, dateIsOld, hn, hd]

/-- The second loop ignores the author map. -/
theorem stage2_congr (env env' : Env) (hn : env.now = env'.now)
    (hd : env.date = env'.date) : ∀ bs : List BugEntry, stage2 env bs = stage2 env' bs := by
  intro bs
  induction bs with
  | nil => rfl
  | cons e rest ih =>
    simp only [stage2, classifyBug_congr env env' hn hd e, ih]

/-- The bugsMissingReview list of a completed second loop holds exactly
the entries whose outcome is missingReview, in order. -/
theorem stage2_ok_filter (env : Env) (bs : List BugEntry) :
    ∀ ms a b c d p, stage2 env bs = Stage2Out.ok ms a b c d p →
      ms = bs.filter (fun e => classifyBug env e == BugOutcome.missingReview) := by
  induction bs with
  | nil =>
    intro ms a b c d p h
    simp only [stage2] at h
    cases h
    rfl
  | cons e rest ih =>
    intro ms a b c d p h
    simp only [stage2] at h
    cases hc : classifyBug env e <;> simp only [hc] at h <;>
      [skip; skip; skip; skip; skip; skip; cases h; cases h] <;>
      (cases hs : stage2 env rest <;> rw [hs] at h) <;> cases h <;>
      (simp [List.filter_cons, hc]
       exact ih _ _ _ _ _ _ hs)

/-- The five counters of a completed second loop together with the
length of the missing list count every bugs entry exactly once. -/
theorem stage2_ok_sum (env : Env) (bs : List BugEntry) :
    ∀ ms a b c d p, stage2 env bs = Stage2Out.ok ms a b c d p →
      a + b + c + d + p + ms.length = bs.length := by
  induction bs with
  | nil =>
    intro ms a b c d p h
    simp only [stage2] at h
    cases h
    rfl
  | cons e rest ih =>
    intro ms a b c d p h
    simp only [stage2] at h
    cases hc : classifyBug env e <;> simp only [hc] at h <;>
      [skip; skip; skip; skip; skip; skip; cases h; cases h] <;>
      (cases hs : stage2 env rest <;> rw [hs] at h) <;> cases h <;>
      (have hrec := ih _ _ _ _ _ _ hs
       simp only [List.length_cons]
       omega)

/-- The stage-three increments to numPeerAuthored count the entries
whose author email is on the peer-email list. -/
theorem stage3_peerAuthored_count (env : Env) (ms : List BugEntry) :
    (stage3 env ms).peerAuthored =
      ms.countP (fun e => classifyMissing env e == MissingOutcome.peerAuthored) := by
  induction ms with
  | nil => rfl
  | cons e rest ih =>
    simp only [stage3]
    cases hc : classifyMissing env e <;>
      simp [hc, List.countP_cons, ih]

/-- numKnownMissing counts the entries with a known-issue bug number
among those missing review. -/
theorem stage3_known_count (env : Env) (ms : List BugEntry) :
    (stage3 env ms).known =
      ms.countP (fun e => classifyMissing env e == MissingOutcome.knownMissing) := by
  induction ms with
  | nil => rfl
  | cons e rest ih =>
    simp only [stage3]
    cases hc : classifyMissing env e <;>
      simp [hc, List.countP_cons, ih]

/-- numUnknownMissing counts the entries that are neither peer-authored
nor known issues among those missing review. -/
theorem stage3_unknown_count (env : Env) (ms : List BugEntry) :
    (stage3 env ms).unknown =
      ms.countP (fun e => classifyMissing env e == MissingOutcome.unknownMissing) := by
  induction ms with
  | nil => rfl
  | cons e rest ih =>
    simp only [stage3]
    cases hc : classifyMissing env e <;>
      simp [hc, List.countP_cons, ih]

/-- The three stage-three counters count every entry of the missing
list exactly once. -/
theorem stage3_sum (env : Env) (ms : List BugEntry) :
    (stage3 env ms).peerAuthored + (stage3 env ms).known + (stage3 env ms).unknown
      = ms.length := by
  induction ms with
  | nil => rfl
  | cons e rest ih =>
    simp only [stage3]
    cases hc : classifyMissing env e <;>
      (simp only [hc, List.length_cons]; omega)

/-- The stderr lines of the third loop are exactly one MISSING line per
unknown entry, in order. -/
theorem stage3_stderr_eq (env : Env) (ms : List BugEntry) :
    (stage3 env ms).stderr = ms.filterMap (fun e =>
      if classifyMissing env e = MissingOutcome.unknownMissing
      then some (missingMsg e) else none) := by
  induction ms with
  | nil => rfl
  | cons e rest ih =>
    simp only [stage3, List.filterMap_cons]
    cases hc : classifyMissing env e <;> simp [hc, ih]

/-- The bugs list of a completed first loop has one entry per line that
matches the bug pattern. -/
theorem stage1_ok_length (env : Env) (lines : List String) :
    ∀ bs nr no, stage1 env lines = Stage1Out.ok bs nr no →
      bs.length = lines.countP (fun l => (bugMatch (pyStrip l)).isSome) := by
  induction lines with
  | nil =>
    intro bs nr no h
    simp only [stage1] at h
    cases h
    rfl
  | cons l ls ih =>
    intro bs nr no h
    simp only [stage1] at h
    rw [List.countP_cons]
    cases hb : bugMatch (pyStrip l) with
    | some pr =>
      obtain ⟨rev, bugno⟩ := pr
      simp only [classifyLine, hb] at h
      cases hs : stage1 env ls <;> rw [hs] at h <;> cases h
      simp [ih _ _ _ hs]
    | none =>
      simp only [classifyLine, hb, hb ▸ Option.isSome_none] at h
      by_cases hm : backoutMergeMatch (pyStrip l) = true
      · simp only [hm, if_true] at h
        cases hs : stage1 env ls <;> rw [hs] at h <;> cases h
        simp [ih _ _ _ hs, hb]
      · simp only [eq_false_of_ne_true hm, if_false] at h
        cases hu : unrecognizedMatch (pyStrip l) with
        | some pr =>
          obtain ⟨rev, s⟩ := pr
          simp only [hu] at h
          by_cases ho : dateIsOld env (env.date rev) = true
          · simp only [ho, if_true] at h
            cases hs : stage1 env ls <;> rw [hs] at h <;> cases h
            simp [ih _ _ _ hs, hb]
          · simp only [eq_false_of_ne_true ho, if_false] at h
            cases h
        | none =>
          simp only [hu] at h
          cases h

/-- The loop of parseReviewers returns OK exactly when some token
parses to a peer name and every earlier token parses to a name that is
not a peer. -/
theorem parseReviewersList_ok_iff (ts : List String) :
    parseReviewersList ts = RevParse.OK ↔
      ∃ pre t post, ts = pre ++ t :: post ∧
        (∀ u ∈ pre, ∃ r, parseToken u = some r ∧ isWebIDLPeer r = false) ∧
        (∃ r, parseToken t = some r ∧ isWebIDLPeer r = true) := by
  induction ts with
  | nil =>
    simp only [parseReviewersList]
    constructor
    · intro h
      cases h
    · rintro ⟨pre, t, post, heq, -, -⟩
      exact absurd heq.symm (List.append_ne_nil_of_right_ne_nil pre (List.cons_ne_nil t post))
  | cons u ts ih =>
    cases hu : parseToken u with
    | none =>
      simp only [parseReviewersList, hu]
      constructor
      · intro h
        cases h
      · rintro ⟨pre, t, post, heq, hpre, r, hr, -⟩
        cases pre with
        | nil =>
          simp only [List.nil_append, List.cons.injEq] at heq
          rw [← heq.1, hu] at hr
          cases hr
        | cons v pre =>
          simp only [List.cons_append, List.cons.injEq] at heq
          obtain ⟨r', hr', -⟩ := hpre v (List.mem_cons_self v pre)
          rw [← heq.1, hu] at hr'
          cases hr'
    | some r =>
      simp only [parseReviewersList, hu]
      by_cases hp : isWebIDLPeer r = true
      · rw [if_pos hp]
        constructor
        · intro _
          exact ⟨[], u, ts, rfl, by simp, r, hu, hp⟩
        · intro _
          rfl
      · rw [if_neg hp]
        rw [ih]
        constructor
        · rintro ⟨pre, t, post, heq, hpre, ht⟩
          refine ⟨u :: pre, t, post, by rw [heq]; rfl, ?_, ht⟩
          intro v hv
          rcases List.mem_cons.mp hv with hv | hv
          · exact ⟨r, hv ▸ hu, eq_false_of_ne_true hp⟩
          · exact hpre v hv
        · rintro ⟨pre, t, post, heq, hpre, r', hr', hp'⟩
          cases pre with
          | nil =>
            simp only [List.nil_append, List.cons.injEq] at heq
            rw [← heq.1, hu] at hr'
            cases hr'
            exact absurd hp' hp
          | cons v pre =>
            simp only [List.cons_append, List.cons.injEq] at heq
            exact ⟨pre, t, post, heq.2,
              fun w hw => hpre w (List.mem_cons_of_mem v hw), r', hr', hp'⟩

/-- The anchored peer-email alternation accepts exactly the two
hardcoded addresses. -/
theorem isPeerEmail_iff (s : String) :
    isPeerEmail s = true ↔ s = "emilio@crisal.io" ∨ s = "sefeng@mozilla.com" := by
  simp [isPeerEmail, webIDLPeersEmails, List.contains_cons]

/-! The claims. -/

/-- C2: a patch that reaches the secondary stage is counted as peer
authored exactly when its fetched author email is one of the two
addresses of the smaller allow-list; otherwise exactly the bug numbers
1966190 and 1979610 are counted as known issues, and every other such
patch is counted as an unknown violation; and the third loop counts
each of its entries under these outcomes. -/
theorem c2_secondary_stage (env : Env) (e : BugEntry) :
    (classifyMissing env e = MissingOutcome.peerAuthored ↔
      (env.author e.revision = "emilio@crisal.io" ∨
       env.author e.revision = "sefeng@mozilla.com"))
    ∧ (classifyMissing env e = MissingOutcome.knownMissing ↔
      (¬(env.author e.revision = "emilio@crisal.io" ∨
         env.author e.revision = "sefeng@mozilla.com") ∧
       (e.bugno = "1966190" ∨ e.bugno = "1979610")))
    ∧ (classifyMissing env e = MissingOutcome.unknownMissing ↔
      (¬(env.author e.revision = "emilio@crisal.io" ∨
         env.author e.revision = "sefeng@mozilla.com") ∧
       e.bugno ≠ "1966190" ∧ e.bugno ≠ "1979610"))
    ∧ (∀ ms : List BugEntry, (stage3 env ms).peerAuthored =
        ms.countP (fun x => classifyMissing env x == MissingOutcome.peerAuthored))
    ∧ (∀ ms : List BugEntry, (stage3 env ms).known =
        ms.countP (fun x => classifyMissing env x == MissingOutcome.knownMissing))
    ∧ (∀ ms : List BugEntry, (stage3 env ms).unknown =
        ms.countP (fun x => classifyMissing env x == MissingOutcome.unknownMissing)) := by
  refine ⟨?_, ?_, ?_, stage3_peerAuthored_count env, stage3_known_count env,
    stage3_unknown_count env⟩ <;>
    (simp only [classifyMissing]
     split_ifs with h1 h2 h3 <;> simp_all [isPeerEmail_iff])

/-- C2 witness: with a peer author email the entry is counted peer
authored. -/
theorem c2_witness :
    classifyMissing envPeerMail ⟨"abc", "5", "l"⟩ = MissingOutcome.peerAuthored :=
  (c2_secondary_stage envPeerMail ⟨"abc", "5", "l"⟩).1.mpr (Or.inl rfl)

/-- C3 fails as stated: in the annotation, the named reviewer smaug is
a WebIDL peer, yet parseReviewers returns BAD_PARSE because the earlier
token does not parse, so the non-old patch is counted unparsable, here
an error exit, and not as having peer review. -/
theorem c3_counterexample :
    someNamedReviewerIsPeer "!,smaug" = true ∧
    parseReviewers "!,smaug" = RevParse.BAD_PARSE ∧
    classifyBug envFresh ⟨"abc", "1", "abc Bug 1 r=!,smaug"⟩ =
      BugOutcome.errUnparsable := by
  decide

/-- C3 (amended): validation against the fixed peer list succeeds
exactly when some comma-separated token of the annotation parses to a
reviewer name on the fixed WebIDL peer list and every earlier token
parses to a reviewer name not on the list. -/
theorem c3_amended_ok_iff (rString : String) :
    parseReviewers rString = RevParse.OK ↔
      ∃ pre t post, (splitComma rString.toList).map String.mk = pre ++ t :: post ∧
        (∀ u ∈ pre, ∃ r, parseToken u = some r ∧ isWebIDLPeer r = false) ∧
        (∃ r, parseToken t = some r ∧ isWebIDLPeer r = true) :=
  parseReviewersList_ok_iff ((splitComma rString.toList).map String.mk)

/-- C3 witness: an annotation with a non-peer first token and a peer
second token validates. -/
theorem c3_amended_witness : parseReviewers "foo,smaug" = RevParse.OK :=
  (c3_amended_ok_iff "foo,smaug").mpr
    ⟨["foo"], "smaug", [], by decide,
     fun u hu => by
       simp only [List.mem_singleton] at hu
       subst hu
       exact ⟨"foo", by decide, by decide⟩,
     ⟨"smaug", by decide, by decide⟩⟩

/-- C5 at the failing input: a line of question marks matches none of
the three patterns, so the script reaches the hashless write whose
formatted argument dereferences the failed match object; the run ends
by exception, with a nonzero status but without the error message
describing the line that the write intended. -/
theorem c5_hashless_crash :
    bugMatch "???" = none ∧ backoutMergeMatch "???" = false ∧
    unrecognizedMatch "???" = none ∧
    classifyLine envFresh "???" = Class1.crashHashless ∧
    run envFresh ["???"] = ⟨[], [], ExitKind.exc⟩ ∧
    exitStatus (run envFresh ["???"]).exit ≠ 0 := by
  refine ⟨rfl, rfl, rfl, rfl, rfl, by decide⟩

/-- C9: a bug-fix line with no reviewer annotation whose commit is not
old is exempted exactly when its bug number is 1968400, in which case
the second loop counts it as peer authored; for any other bug number
the loop stops with an error message and the nonzero exit. -/
theorem c9_reviewerless_exemption (env : Env) (e : BugEntry)
    (h1 : rEqualSearch e.line = none)
    (h2 : dateIsOld env (env.date e.revision) = false) :
    (classifyBug env e = BugOutcome.peerAuthoredNoR ↔ e.bugno = "1968400")
    ∧ (e.bugno = "1968400" → stage2 env [e] = Stage2Out.ok [] 0 0 0 0 1)
    ∧ (e.bugno ≠ "1968400" →
        classifyBug env e = BugOutcome.errNoReviewer ∧
        stage2 env [e] =
          Stage2Out.err ("Error: non-old bug without reviewer string: " ++ e.line)) := by
  have hcb : classifyBug env e =
      if e.bugno = "1968400" then BugOutcome.peerAuthoredNoR
      else BugOutcome.errNoReviewer := by
    simp [classifyBug, h1, h2]
  by_cases hb : e.bugno = "1968400"
  · rw [if_pos hb] at hcb
    refine ⟨by simp [hcb, hb], fun _ => ?_, fun hne => absurd hb hne⟩
    simp [stage2, hcb]
  · rw [if_neg hb] at hcb
    refine ⟨by simp [hcb, hb], fun h => absurd h hb, fun _ => ⟨hcb, ?_⟩⟩
    simp [stage2, hcb]

/-- C9 witness: the exempted bug number is counted peer authored. -/
theorem c9_witness :
    stage2 envFresh [⟨"abc", "1968400", "abc Bug 1968400 landed"⟩] =
      Stage2Out.ok [] 0 0 0 0 1 :=
  (c9_reviewerless_exemption envFresh ⟨"abc", "1968400", "abc Bug 1968400 landed"⟩
    (by decide) (by decide)).2.1 rfl

/-- C10: a commit is old exactly when the captured start time minus its
date is at least 1095 days, 1095 being 3 times 365; and every old
branch of the pipeline holds only under that same threshold against the
same captured start time. -/
theorem c10_old_threshold (env : Env) (d : Int) :
    (dateIsOld env d = true ↔ timedeltaDays 1095 ≤ env.now - d)
    ∧ numOldYears * 365 = 1095
    ∧ (∀ raw, classifyLine env raw = Class1.oldUnrecognized →
        ∃ rev s, unrecognizedMatch (pyStrip raw) = some (rev, s) ∧
          timedeltaDays 1095 ≤ env.now - env.date rev)
    ∧ (∀ e : BugEntry,
        (classifyBug env e = BugOutcome.oldUnparsable ∨
         classifyBug env e = BugOutcome.oldMissing ∨
         classifyBug env e = BugOutcome.oldReviewerless) →
          timedeltaDays 1095 ≤ env.now - env.date e.revision) := by
  refine ⟨dateIsOld_iff env d, by norm_num [numOldYears], ?_, ?_⟩
  · intro raw h
    cases hb : bugMatch (pyStrip raw) with
    | some pr =>
      obtain ⟨rev, bugno⟩ := pr
      simp [classifyLine, hb] at h
    | none =>
      cases hm : backoutMergeMatch (pyStrip raw) with
      | true => simp [classifyLine, hb, hm] at h
      | false =>
        cases hu : unrecognizedMatch (pyStrip raw) with
        | some pr =>
          obtain ⟨rev, s⟩ := pr
          cases ho : dateIsOld env (env.date rev) with
          | true => exact ⟨rev, s, rfl, (dateIsOld_iff env (env.date rev)).mp ho⟩
          | false => simp [classifyLine, hb, hm, hu, ho] at h
        | none => simp [classifyLine, hb, hm, hu] at h
  · intro e h
    cases hr : rEqualSearch e.line with
    | some rstr =>
      cases hv : parseReviewers rstr with
      | OK => simp [classifyBug, hr, hv] at h
      | BAD_PARSE =>
        cases ho : dateIsOld env (env.date e.revision) with
        | true => exact (dateIsOld_iff env (env.date e.revision)).mp ho
        | false => simp [classifyBug, hr, hv, ho] at h
      | MISSING =>
        cases ho : dateIsOld env (env.date e.revision) with
        | true => exact (dateIsOld_iff env (env.date e.revision)).mp ho
        | false => simp [classifyBug, hr, hv, ho] at h
    | none =>
      cases ho : dateIsOld env (env.date e.revision) with
      | true => exact (dateIsOld_iff env (env.date e.revision)).mp ho
      | false =>
        by_cases hb : e.bugno = "1968400" <;> simp [classifyBug, hr, ho, hb] at h

/-- C10 witness: a commit a hundred million seconds in the past is
old. -/
theorem c10_witness : timedeltaDays 1095 ≤ envOld.now - 100000000 :=
  (c10_old_threshold envOld 100000000).1.mp rfl

/-- C1: when every line and every bug-fix patch is processed without an
early error exit, the run exits nonzero if any unknown unresolved
violation was counted, and otherwise prints the summary report of the
named counters and terminates with status zero. -/
theorem c1_final_exit (env : Env) (lines : List String)
    (bs ms : List BugEntry) (nr no a b c d p : Nat)
    (h1 : stage1 env lines = Stage1Out.ok bs nr no)
    (h2 : stage2 env bs = Stage2Out.ok ms a b c d p) :
    (0 < (stage3 env ms).unknown →
      (run env lines).exit = ExitKind.err ∧ exitStatus (run env lines).exit ≠ 0)
    ∧ ((stage3 env ms).unknown = 0 →
      run env lines = ⟨(stage3 env ms).stderr,
        reportLines (finalCounters nr no a b c d p (stage3 env ms)),
        ExitKind.ok (finalCounters nr no a b c d p (stage3 env ms))⟩ ∧
      exitStatus (run env lines).exit = 0) := by
  have hrun : run env lines =
      (if 0 < (stage3 env ms).unknown
       then ⟨(stage3 env ms).stderr ++ [unknownBanner], [], ExitKind.err⟩
       else ⟨(stage3 env ms).stderr,
         reportLines (finalCounters nr no a b c d p (stage3 env ms)),
         ExitKind.ok (finalCounters nr no a b c d p (stage3 env ms))⟩) := by
    simp only [run, h1, h2, finalCounters]
  constructor
  · intro hu
    rw [hrun, if_pos hu]
    exact ⟨rfl, by simp [exitStatus]⟩
  · intro hu
    rw [hrun, if_neg (by omega)]
    exact ⟨rfl, rfl⟩

/-- C1 witness: a single peer-reviewed bug line yields the report and
status zero. -/
theorem c1_witness :
    run envFresh ["abc bug 5 r=smaug"] =
      ⟨(stage3 envFresh []).stderr,
       reportLines (finalCounters 0 0 1 0 0 0 0 (stage3 envFresh [])),
       ExitKind.ok (finalCounters 0 0 1 0 0 0 0 (stage3 envFresh []))⟩ ∧
    exitStatus (run envFresh ["abc bug 5 r=smaug"]).exit = 0 :=
  (c1_final_exit envFresh ["abc bug 5 r=smaug"]
    [⟨"abc", "5", "abc bug 5 r=smaug"⟩] [] 0 0 1 0 0 0 0 rfl rfl).2 rfl

/-- C4: every line is classified by trying the bug pattern, then the
backout or merge pattern, then the generic pattern with the date check,
and everything remaining is an error; a line matching the bug pattern
is always classified as a bug fix. -/
theorem c4_classification_order (env : Env) (raw : String) :
    (∀ rev bugno, bugMatch (pyStrip raw) = some (rev, bugno) →
      classifyLine env raw = Class1.bug rev bugno (pyStrip raw))
    ∧ (classifyLine env raw = Class1.revert ↔
      bugMatch (pyStrip raw) = none ∧ backoutMergeMatch (pyStrip raw) = true)
    ∧ (classifyLine env raw = Class1.oldUnrecognized ↔
      bugMatch (pyStrip raw) = none ∧ backoutMergeMatch (pyStrip raw) = false ∧
      ∃ rev s, unrecognizedMatch (pyStrip raw) = some (rev, s) ∧
        dateIsOld env (env.date rev) = true)
    ∧ ((classifyLine env raw = Class1.crashHashless ∨
       ∃ s, classifyLine env raw = Class1.errNonOld s) ↔
      bugMatch (pyStrip raw) = none ∧ backoutMergeMatch (pyStrip raw) = false ∧
      ∀ rev s, unrecognizedMatch (pyStrip raw) = some (rev, s) →
        dateIsOld env (env.date rev) = false) := by
  cases hb : bugMatch (pyStrip raw) with
  | some pr =>
    obtain ⟨rev, bugno⟩ := pr
    have hcl : classifyLine env raw = Class1.bug rev bugno (pyStrip raw) := by
      simp [classifyLine, hb]
    refine ⟨?_, by simp [hcl], by simp [hcl], by simp [hcl]⟩
    intro rev' bugno' hsome
    rw [Option.some.injEq, Prod.mk.injEq] at hsome
    obtain ⟨hr, hn⟩ := hsome
    subst hr
    subst hn
    exact hcl
  | none =>
    cases hm : backoutMergeMatch (pyStrip raw) with
    | true =>
      have hcl : classifyLine env raw = Class1.revert := by
        simp [classifyLine, hb, hm]
      refine ⟨?_, by simp [hcl], by simp [hcl], by simp [hcl]⟩
      intro rev' bugno' hsome
      cases hsome
    | false =>
      cases hu : unrecognizedMatch (pyStrip raw) with
      | some pr =>
        obtain ⟨rev, s⟩ := pr
        cases ho : dateIsOld env (env.date rev) with
        | true =>
          have hcl : classifyLine env raw = Class1.oldUnrecognized := by
            simp [classifyLine, hb, hm, hu, ho]
          refine ⟨?_, by simp [hcl], ?_, ?_⟩
          · intro rev' bugno' hsome
            cases hsome
          · rw [hcl]
            exact ⟨fun _ => ⟨rfl, rfl, rev, s, rfl, ho⟩, fun _ => rfl⟩
          · rw [hcl]
            constructor
            · rintro (h | ⟨s', h⟩) <;> cases h
            · rintro ⟨-, -, hall⟩
              exact absurd (hall rev s rfl) (by simp [ho])
        | false =>
          have hcl : classifyLine env raw = Class1.errNonOld s := by
            simp [classifyLine, hb, hm, hu, ho]
          refine ⟨?_, by simp [hcl], ?_, ?_⟩
          · intro rev' bugno' hsome
            cases hsome
          · rw [hcl]
            constructor
            · intro h
              cases h
            · rintro ⟨-, -, rev', s', hu', ho'⟩
              rw [Option.some.injEq, Prod.mk.injEq] at hu'
              obtain ⟨h1, -⟩ := hu'
              subst h1
              rw [ho] at ho'
              cases ho'
          · rw [hcl]
            constructor
            · intro _
              refine ⟨rfl, rfl, ?_⟩
              intro rev' s' hu'
              rw [Option.some.injEq, Prod.mk.injEq] at hu'
              obtain ⟨h1, -⟩ := hu'
              subst h1
              exact ho
            · intro _
              exact Or.inr ⟨s, rfl⟩
      | none =>
        have hcl : classifyLine env raw = Class1.crashHashless := by
          simp [classifyLine, hb, hm, hu]
        refine ⟨?_, by simp [hcl], ?_, ?_⟩
        · intro rev' bugno' hsome
          cases hsome
        · rw [hcl]
          constructor
          · intro h
            cases h
          · rintro ⟨-, -, rev', s', hu', -⟩
            cases hu'
        · rw [hcl]
          constructor
          · intro _
            refine ⟨rfl, rfl, ?_⟩
            intro rev' s' hu'
            cases hu'
          · intro _
            exact Or.inl rfl

/-- C4 witness: a merge line is classified as a backout or merge. -/
theorem c4_witness :
    classifyLine envFresh "deadbeef Merge autoland to central" = Class1.revert :=
  (c4_classification_order envFresh "deadbeef Merge autoland to central").2.1.mpr
    ⟨rfl, rfl⟩

/-- C6: the reviewer-string check of the second loop never consults the
author map; the list handed to the secondary stage of a completed
second loop holds exactly the entries whose reviewer check returned
missing on a non-old commit, so an entry whose reviewer string
validates never reaches the author lookup; and the secondary check of
an entry depends on the environment only through the author email of
the entry. -/
theorem c6_two_stage_order :
    (∀ env env' : Env, env.now = env'.now → env.date = env'.date →
      ∀ bs : List BugEntry, stage2 env bs = stage2 env' bs)
    ∧ (∀ (env : Env) (bs ms : List BugEntry) (a b c d p : Nat),
      stage2 env bs = Stage2Out.ok ms a b c d p →
        ms = bs.filter (fun e => classifyBug env e == BugOutcome.missingReview))
    ∧ (∀ (env : Env) (e : BugEntry), classifyBug env e = BugOutcome.hasPeer →
      ∀ (bs ms : List BugEntry) (a b c d p : Nat),
        stage2 env bs = Stage2Out.ok ms a b c d p → e ∉ ms)
    ∧ (∀ (env env' : Env) (e : BugEntry),
      env.author e.revision = env'.author e.revision →
        classifyMissing env e = classifyMissing env' e) := by
  refine ⟨stage2_congr,
    fun env bs ms a b c d p h => stage2_ok_filter env bs ms a b c d p h, ?_, ?_⟩
  · intro env e hpeer bs ms a b c d p h hmem
    rw [stage2_ok_filter env bs ms a b c d p h] at hmem
    have hmr := (List.mem_filter.mp hmem).2
    rw [hpeer] at hmr
    exact absurd hmr (by decide)
  · intro env env' e h
    simp only [classifyMissing, h]

/-- C6 witness: a peer-reviewed entry leaves the missing list empty. -/
theorem c6_witness :
    ([] : List BugEntry) =
      [(⟨"abc", "5", "abc bug 5 r=smaug"⟩ : BugEntry)].filter
        (fun e => classifyBug envFresh e == BugOutcome.missingReview) :=
  c6_two_stage_order.2.1 envFresh [⟨"abc", "5", "abc bug 5 r=smaug"⟩] [] 1 0 0 0 0 rfl

/-- C7: on a run processed to completion, the seven per-bug counters
partition the bug-fix lines, so their sum is the number of lines
classified as bug fixes with a bug number. -/
theorem c7_counter_partition (env : Env) (lines : List String)
    (bs ms : List BugEntry) (nr no a b c d p : Nat)
    (h1 : stage1 env lines = Stage1Out.ok bs nr no)
    (h2 : stage2 env bs = Stage2Out.ok ms a b c d p) :
    (finalCounters nr no a b c d p (stage3 env ms)).numHasPeer +
    (finalCounters nr no a b c d p (stage3 env ms)).numOldUnparsableReviewers +
    (finalCounters nr no a b c d p (stage3 env ms)).numOldMissing +
    (finalCounters nr no a b c d p (stage3 env ms)).numOldReviewerless +
    (finalCounters nr no a b c d p (stage3 env ms)).numPeerAuthored +
    (finalCounters nr no a b c d p (stage3 env ms)).numKnownMissing +
    (finalCounters nr no a b c d p (stage3 env ms)).numUnknownMissing =
      lines.countP (fun l => (bugMatch (pyStrip l)).isSome) := by
  have hs2 := stage2_ok_sum env bs ms a b c d p h2
  have hs3 := stage3_sum env ms
  have hlen := stage1_ok_length env lines bs nr no h1
  simp only [finalCounters]
  omega

/-- C7 witness: the partition at a one-line input. -/
theorem c7_witness :
    (finalCounters 0 0 1 0 0 0 0 (stage3 envFresh [])).numHasPeer +
    (finalCounters 0 0 1 0 0 0 0 (stage3 envFresh [])).numOldUnparsableReviewers +
    (finalCounters 0 0 1 0 0 0 0 (stage3 envFresh [])).numOldMissing +
    (finalCounters 0 0 1 0 0 0 0 (stage3 envFresh [])).numOldReviewerless +
    (finalCounters 0 0 1 0 0 0 0 (stage3 envFresh [])).numPeerAuthored +
    (finalCounters 0 0 1 0 0 0 0 (stage3 envFresh [])).numKnownMissing +
    (finalCounters 0 0 1 0 0 0 0 (stage3 envFresh [])).numUnknownMissing =
      ["abc bug 5 r=smaug"].countP (fun l => (bugMatch (pyStrip l)).isSome) :=
  c7_counter_partition envFresh ["abc bug 5 r=smaug"]
    [⟨"abc", "5", "abc bug 5 r=smaug"⟩] [] 0 0 1 0 0 0 0 rfl rfl

/-- C8: on a run processed to completion, the third loop writes exactly
one MISSING line, holding the bug number and the summary line, per
unknown violation, and the stderr of the run is those lines followed by
the final banner exactly when an unknown violation remains. -/
theorem c8_missing_stderr (env : Env) (lines : List String)
    (bs ms : List BugEntry) (nr no a b c d p : Nat)
    (h1 : stage1 env lines = Stage1Out.ok bs nr no)
    (h2 : stage2 env bs = Stage2Out.ok ms a b c d p) :
    (stage3 env ms).stderr = ms.filterMap (fun e =>
      if classifyMissing env e = MissingOutcome.unknownMissing
      then some (missingMsg e) else none)
    ∧ (run env lines).stderr = (stage3 env ms).stderr ++
        (if 0 < (stage3 env ms).unknown then [unknownBanner] else []) := by
  refine ⟨stage3_stderr_eq env ms, ?_⟩
  have hrun : run env lines =
      (if 0 < (stage3 env ms).unknown
       then ⟨(stage3 env ms).stderr ++ [unknownBanner], [], ExitKind.err⟩
       else ⟨(stage3 env ms).stderr,
         reportLines (finalCounters nr no a b c d p (stage3 env ms)),
         ExitKind.ok (finalCounters nr no a b c d p (stage3 env ms))⟩) := by
    simp only [run, h1, h2, finalCounters]
  by_cases hu : 0 < (stage3 env ms).unknown
  · rw [hrun, if_pos hu, if_pos hu]
  · rw [hrun, if_neg hu, if_neg hu]
    simp

/-- C8 witness: one unknown violation yields one MISSING line. -/
theorem c8_witness :
    (stage3 envFresh [⟨"abc", "5", "abc bug 5 r=nobody"⟩]).stderr =
      [(⟨"abc", "5", "abc bug 5 r=nobody"⟩ : BugEntry)].filterMap (fun e =>
        if classifyMissing envFresh e = MissingOutcome.unknownMissing
        then some (missingMsg e) else none) ∧
    (run envFresh ["abc bug 5 r=nobody"]).stderr =
      (stage3 envFresh [⟨"abc", "5", "abc bug 5 r=nobody"⟩]).stderr ++
        (if 0 < (stage3 envFresh [⟨"abc", "5", "abc bug 5 r=nobody"⟩]).unknown
         then [unknownBanner] else []) :=
  c8_missing_stderr envFresh ["abc bug 5 r=nobody"]
    [⟨"abc", "5", "abc bug 5 r=nobody"⟩] [⟨"abc", "5", "abc bug 5 r=nobody"⟩]
    0 0 0 0 0 0 0 rfl rfl

end WebidlAudit
